import Mathlib

/-!
# goplayspace server: the compile, load and transport handlers

A shallow embedding of `server/server.go`.

* Go `string` and `[]byte` values are byte sequences: `Bytes`.
* Everything outside the repository that the server calls is a field of
  `Env`: `http.NewRequest`, `http.DefaultClient.Do`, `encoding/json` at the
  two struct types the server uses, and `url.Values.Encode`.
* A handler run is the list of calls it makes on its `http.ResponseWriter`,
  the list of upstream requests it hands to the HTTP client, and the lines
  it logs. `response` reads off the call list what `net/http` sends to the
  client.
-/

namespace GoPlaySpace

/-- Byte sequences: the model of Go `string` and `[]byte`. -/
abbrev Bytes := List Nat

/-- The bytes of an ASCII string literal of the source. -/
def ascii (s : String) : Bytes := s.data.map Char.toNat

/-- A Go `error` value, identified by its message. -/
structure GoError where
  msg : Bytes
deriving DecidableEq, Repr

/-- The constructor `errors.New`. -/
def errors.New (text : Bytes) : GoError := ⟨text⟩

def userAgent : Bytes := ascii "goplay.space/1.0 (https://goplay.space/)"

def maxSnippetSize : Nat := 64 * 1024

structure FmtResponse where
  Body : Bytes
  Error : Bytes
deriving DecidableEq, Repr

structure CompileEvent where
  Message : Bytes
  Kind : Bytes
  Delay : Int
deriving DecidableEq, Repr

/-- The struct `CompileResponse`. `Body *string` is an `Option`; in
`Events []*CompileEvent` the outer `Option` is the nil slice and the inner one
a nil pointer. -/
structure CompileResponse where
  Body : Option Bytes
  Events : Option (List (Option CompileEvent))
  Errors : Bytes
deriving DecidableEq, Repr

structure serverContext where
  backend : Bytes
deriving DecidableEq, Repr

/-! ## The standard library, as far as the server uses it -/

/-- The function `strings.Join`. -/
def strings.Join : List Bytes → Bytes → Bytes
  | [], _ => []
  | [a], _ => a
  | a :: b :: rest, sep => a ++ sep ++ strings.Join (b :: rest) sep

/-- A readable body (`io.Reader`): the bytes it yields, then end of file
(`err = none`) or a read error. -/
structure BodyStream where
  data : Bytes
  err : Option GoError
deriving DecidableEq, Repr

/-- The reader `io.LimitReader r n`: it yields at most `n` bytes of `r` and then
end of file; the error of `r` is reached only when `r` has fewer than `n`
bytes. -/
def io.LimitReader (r : BodyStream) (n : Nat) : BodyStream :=
  { data := r.data.take n, err := if r.data.length < n then r.err else none }

/-- The call `io.Copy(&buf, r)` into an empty buffer: the buffer afterwards and
the error returned. -/
def io.Copy (r : BodyStream) : Bytes × Option GoError := (r.data, r.err)

/-- The function `ioutil.ReadAll`: the bytes read before the end of file or the
error, and the error. -/
def ioutil.ReadAll (r : BodyStream) : Bytes × Option GoError := (r.data, r.err)

/-- An outgoing request, as the server asks for it: `URL` is the string given
to `http.NewRequest` or `http.Get`, before `net/url` parses and escapes it. -/
structure Request where
  Method : Bytes
  URL : Bytes
  Header : List (Bytes × Bytes)
  Body : Bytes
deriving DecidableEq, Repr

/-- The upstream answer, `http.Response`. -/
structure Response where
  StatusCode : Nat
  Body : BodyStream
deriving DecidableEq, Repr

/-- The form `url.Values`, as the list of its `Add` calls. -/
abbrev Values := List (Bytes × Bytes)

/-- The method `url.Values.Add`. -/
def Values.Add (v : Values) (key value : Bytes) : Values := v ++ [(key, value)]

/-- The environment of the server: the upstream seen through the HTTP client,
and the library functions whose result the handlers only pass on.
`NewRequest` is the error of `http.NewRequest` for a method and a URL string,
`none` when the request is built: it fails on a string that `net/url` does not
parse, and then nothing is sent. `ClientDo` is `http.DefaultClient.Do` on a
request that was built: a transport error, or the upstream answer (the client
follows redirects on its own). -/
structure Env where
  NewRequest : Bytes → Bytes → Option GoError
  ClientDo : Request → Except GoError Response
  Encode : Values → Bytes
  UnmarshalFmt : Bytes → Except GoError FmtResponse
  UnmarshalCompile : Bytes → Except GoError CompileResponse
  MarshalCompile : CompileResponse → Except GoError Bytes

/-- The calls `http.NewRequest` and then `http.DefaultClient.Do`, taken together:
the error of either, or the upstream answer. -/
def Env.Do (env : Env) (req : Request) : Except GoError Response :=
  match env.NewRequest req.Method req.URL with
  | some err => .error err
  | none => env.ClientDo req

/-- The incoming request `*http.Request`: method, `URL.RawQuery` and body. -/
structure HttpRequest where
  Method : Bytes
  RawQuery : Bytes
  Body : BodyStream
deriving DecidableEq, Repr

def http.MethodGet : Bytes := ascii "GET"
def http.MethodPost : Bytes := ascii "POST"
def http.StatusOK : Nat := 200
def http.StatusMethodNotAllowed : Nat := 405
def http.StatusInternalServerError : Nat := 500

/-- A call on the `http.ResponseWriter`. -/
inductive WCall where
  | WriteHeader (code : Nat)
  | Write (b : Bytes)
deriving DecidableEq, Repr

/-- The check `checkWriteHeaderCode` of `net/http`: `WriteHeader` panics on a
code outside 100..999. -/
def validCode (code : Nat) : Bool := decide (100 ≤ code) && decide (code ≤ 999)

/-- The informational codes, 1xx other than 101: `WriteHeader` sends them at
once as an interim response, and the status of the response is still open. -/
def informational (code : Nat) : Bool :=
  decide (100 ≤ code) && decide (code ≤ 199) && code != 101

/-- The function `bodyAllowedForStatus` of `net/http`: a response with status
1xx, 204 or 304 carries no body, and a `Write` to it sends nothing. -/
def bodyAllowedForStatus (status : Nat) : Bool :=
  !(decide (100 ≤ status) && decide (status ≤ 199)) && status != 204 && status != 304

/-- Whether the calls made so far have fixed the status of the response: a
`Write`, or a `WriteHeader` with a code that is not informational. -/
def wroteHeader : List WCall → Bool
  | [] => false
  | .Write _ :: _ => true
  | .WriteHeader code :: rest => if informational code then wroteHeader rest else true

/-- The function `http.Error`, for status and body, on a writer that has
received the calls `w`: `w.WriteHeader(code)` followed by
`fmt.Fprintln(w, error)`. When the status is still open and the code is outside
100..999, `WriteHeader` panics and the handler ends there, before the write. -/
def http.Error (w : List WCall) (error : Bytes) (code : Nat) : List WCall :=
  if !wroteHeader w && !validCode code then
    w ++ [.WriteHeader code]
  else
    w ++ [.WriteHeader code, .Write (error ++ ascii "\n")]

/-- A response: its status code and the bytes of its body. -/
structure Served where
  status : Nat
  body : Bytes
deriving DecidableEq, Repr

/-- The bytes written: the writes, in order. -/
def bodyOf : List WCall → Bytes
  | [] => []
  | .WriteHeader _ :: rest => bodyOf rest
  | .Write b :: rest => b ++ bodyOf rest

/-- The response `net/http` sends for the calls of a handler on a request whose
method allows a body (for HEAD it sends the status and no body). The status is
that of the first `WriteHeader` with a code that is not informational, or 200
when a `Write` comes first or the handler writes nothing; a later `WriteHeader`
is ignored. The body is the writes, in order, and empty when the status
forbids a body. `none`: the first `WriteHeader` panics on its code, the server
closes the connection and the client receives no response. -/
def response : List WCall → Option Served
  | [] => some ⟨http.StatusOK, []⟩
  | .Write b :: rest => some ⟨http.StatusOK, b ++ bodyOf rest⟩
  | .WriteHeader code :: rest =>
    if !validCode code then none
    else if informational code then response rest
    else some ⟨code, if bodyAllowedForStatus code then bodyOf rest else []⟩

/-- The response the client receives; status 0 with an empty body stands for no
response at all (`response` is `none`). -/
def served (w : List WCall) : Served := (response w).getD ⟨0, []⟩

/-- A line of `log.Printf(format, err)`. -/
structure LogLine where
  format : Bytes
  err : GoError
deriving DecidableEq, Repr

/-- A run of a handler. -/
structure Run where
  w : List WCall
  calls : List Request
  log : List LogLine
deriving DecidableEq, Repr

/-! ## The server -/

/-- The result of `doRequest`: the request it asks for, the requests handed to
the client (that request, once `http.NewRequest` has built it), how many bytes
of the response body it reads, and what it returns. -/
structure DoResult where
  sent : Request
  calls : List Request
  consumed : Nat
  result : Except GoError Bytes

def serverContext.doRequest (_c : serverContext) (env : Env)
    (method url contentType body : Bytes) : DoResult :=
  let req : Request :=
    ⟨method, url, [(ascii "Content-Type", contentType), (ascii "User-Agent", userAgent)], body⟩
  match env.NewRequest method url with
  | some err => ⟨req, [], 0, .error err⟩
  | none =>
    match env.ClientDo req with
    | .error err => ⟨req, [req], 0, .error err⟩
    | .ok response =>
      match io.Copy (io.LimitReader response.Body (maxSnippetSize + 1)) with
      | (bodyBytes, some err) => ⟨req, [req], bodyBytes.length, .error err⟩
      | (bodyBytes, none) =>
        if bodyBytes.length > maxSnippetSize then
          ⟨req, [req], bodyBytes.length, .error (errors.New (ascii "Snippet is too large"))⟩
        else
          ⟨req, [req], bodyBytes.length, .ok bodyBytes⟩

def serverContext.postForm (c : serverContext) (env : Env) (url : Bytes) (data : Values) :
    DoResult :=
  c.doRequest env (ascii "POST") url (ascii "application/x-www-form-urlencoded") (env.Encode data)

def serverContext.runImports (c : serverContext) (env : Env) (body : Bytes) : DoResult :=
  let form : Values := []
  let form := form.Add (ascii "imports") (ascii "true")
  let form := form.Add (ascii "body") body
  c.postForm env (strings.Join [c.backend, ascii "fmt"] (ascii "/")) form

def serverContext.runCompile (c : serverContext) (env : Env) (body : Bytes) : DoResult :=
  let form : Values := []
  let form := form.Add (ascii "body") body
  let form := form.Add (ascii "version") (ascii "2")
  c.postForm env (strings.Join [c.backend, ascii "compile"] (ascii "/")) form

def serverContext.compileHandler (c : serverContext) (env : Env) (r : HttpRequest) : Run :=
  if r.Method ≠ http.MethodPost then
    ⟨http.Error [] (ascii "Method not allowed") http.StatusMethodNotAllowed, [], []⟩
  else
    match ioutil.ReadAll r.Body with
    | (_, some _) =>
      ⟨http.Error [] (ascii "Failed to read request data") http.StatusInternalServerError, [], []⟩
    | (body, none) =>
      let imports := c.runImports env body
      match imports.result with
      | .error err =>
        ⟨http.Error [] (ascii "Failed to format source code") http.StatusInternalServerError,
          imports.calls, [⟨ascii "runImports() error: %v", err⟩]⟩
      | .ok bodyBytes =>
        match env.UnmarshalFmt bodyBytes with
        | .error err =>
          ⟨http.Error [] (ascii "Failed to decode upstream server response")
              http.StatusInternalServerError,
            imports.calls, [⟨ascii "fmtResponse unmarshal error: %v", err⟩]⟩
        | .ok fmtResponse =>
          if fmtResponse.Error ≠ [] then
            ⟨[.Write bodyBytes], imports.calls, []⟩
          else
            let bodyUpdated := fmtResponse.Body != body
            let compile := c.runCompile env fmtResponse.Body
            match compile.result with
            | .error err =>
              ⟨http.Error [] (ascii "Failed to compile source code") http.StatusInternalServerError,
                imports.calls ++ compile.calls, [⟨ascii "runCompile() error: %v", err⟩]⟩
            | .ok bodyBytes =>
              if !bodyUpdated then
                ⟨[.Write bodyBytes], imports.calls ++ compile.calls, []⟩
              else
                match env.UnmarshalCompile bodyBytes with
                | .error err =>
                  ⟨http.Error [] (ascii "Failed to decode upstream server response")
                      http.StatusInternalServerError,
                    imports.calls ++ compile.calls,
                    [⟨ascii "compileResponse unmarshal error: %v", err⟩]⟩
                | .ok compileResponse =>
                  let compileResponse := { compileResponse with Body := some fmtResponse.Body }
                  match env.MarshalCompile compileResponse with
                  | .error err =>
                    ⟨http.Error [] (ascii "Failed to encode data") http.StatusInternalServerError,
                      imports.calls ++ compile.calls,
                      [⟨ascii "compileResponse marshal error: %v", err⟩]⟩
                  | .ok bodyBytes =>
                    ⟨[.Write bodyBytes], imports.calls ++ compile.calls, []⟩

/-- The call `http.Get(url)`: a GET request without headers or body, built by
`http.NewRequest` and handed to the client. The requests handed over, and the
result. -/
def http.Get (env : Env) (url : Bytes) : List Request × Except GoError Response :=
  match env.NewRequest http.MethodGet url with
  | some err => ([], .error err)
  | none =>
    let req : Request := ⟨http.MethodGet, url, [], []⟩
    ([req], env.ClientDo req)

def serverContext.loadHandler (c : serverContext) (env : Env) (r : HttpRequest) : Run :=
  if r.Method ≠ http.MethodGet then
    ⟨http.Error [] (ascii "Method not allowed") http.StatusMethodNotAllowed, [], []⟩
  else
    match http.Get env (strings.Join [c.backend, ascii "p", r.RawQuery ++ ascii ".go"] (ascii "/")) with
    | (calls, .error _) =>
      ⟨http.Error [] (ascii "Failed to load snippet") http.StatusInternalServerError, calls, []⟩
    | (calls, .ok response) =>
      match ioutil.ReadAll response.Body with
      | (bodyBytes, err) =>
        let w : List WCall :=
          match err with
          | some _ => http.Error [] (ascii "Failed to read data") http.StatusInternalServerError
          | none => []
        if response.StatusCode ≠ http.StatusOK then
          ⟨http.Error w bodyBytes response.StatusCode, calls, []⟩
        else
          ⟨w ++ [.Write bodyBytes], calls, []⟩

/-! ## Names for the requests and the failure stages -/

/-- The URL of the format stage. -/
def fmtURL (c : serverContext) : Bytes := c.backend ++ ascii "/" ++ ascii "fmt"

/-- The URL of the compile stage. -/
def compileURL (c : serverContext) : Bytes := c.backend ++ ascii "/" ++ ascii "compile"

/-- The request `doRequest` builds. -/
def mkRequest (method url contentType body : Bytes) : Request :=
  ⟨method, url, [(ascii "Content-Type", contentType), (ascii "User-Agent", userAgent)], body⟩

/-- The URL `loadHandler` fetches for a snippet id. -/
def loadURL (c : serverContext) (id : Bytes) : Bytes :=
  c.backend ++ ascii "/p/" ++ id ++ ascii ".go"

/-- The stages of `compileHandler` at which an infrastructure failure can
occur. -/
inductive Stage where
  | formatTransport
  | formatDecode
  | compileTransport
  | compileDecode
  | reencode
deriving DecidableEq, Repr

/-- The message the client is sent for a failure at each stage. -/
def Stage.message : Stage → Bytes
  | .formatTransport => ascii "Failed to format source code"
  | .formatDecode => ascii "Failed to decode upstream server response"
  | .compileTransport => ascii "Failed to compile source code"
  | .compileDecode => ascii "Failed to decode upstream server response"
  | .reencode => ascii "Failed to encode data"

/-- The format string of the log line of each stage. -/
def Stage.logFormat : Stage → Bytes
  | .formatTransport => ascii "runImports() error: %v"
  | .formatDecode => ascii "fmtResponse unmarshal error: %v"
  | .compileTransport => ascii "runCompile() error: %v"
  | .compileDecode => ascii "compileResponse unmarshal error: %v"
  | .reencode => ascii "compileResponse marshal error: %v"

/-- The POST request `r`, in environment `env`, fails at stage `s` with the
underlying error `e`: the stages before `s` succeed and the call of stage `s`
returns `e`. Stated on the environment, not on the handler. -/
def FailsAt (c : serverContext) (env : Env) (r : HttpRequest) (s : Stage) (e : GoError) : Prop :=
  r.Method = http.MethodPost ∧ ∃ S, r.Body = ⟨S, none⟩ ∧
    match s with
    | .formatTransport => (c.runImports env S).result = .error e
    | .formatDecode =>
      ∃ F, (c.runImports env S).result = .ok F ∧ env.UnmarshalFmt F = .error e
    | .compileTransport =>
      ∃ F fr, (c.runImports env S).result = .ok F ∧ env.UnmarshalFmt F = .ok fr ∧
        fr.Error = [] ∧ (c.runCompile env fr.Body).result = .error e
    | .compileDecode =>
      ∃ F fr C, (c.runImports env S).result = .ok F ∧ env.UnmarshalFmt F = .ok fr ∧
        fr.Error = [] ∧ fr.Body ≠ S ∧ (c.runCompile env fr.Body).result = .ok C ∧
        env.UnmarshalCompile C = .error e
    | .reencode =>
      ∃ F fr C cr, (c.runImports env S).result = .ok F ∧ env.UnmarshalFmt F = .ok fr ∧
        fr.Error = [] ∧ fr.Body ≠ S ∧ (c.runCompile env fr.Body).result = .ok C ∧
        env.UnmarshalCompile C = .ok cr ∧
        env.MarshalCompile { cr with Body := some fr.Body } = .error e

/-- The contract of `encoding/json` at a `CompileResponse` value: `json.Marshal`
encodes it, and `json.Unmarshal` decodes that document back to the value. -/
def JsonRoundTrip (env : Env) (v : CompileResponse) : Prop :=
  ∃ out, env.MarshalCompile v = .ok out ∧ env.UnmarshalCompile out = .ok v

/-! ## A table environment and sample exchanges

The samples fix what the upstream and the library answer on the few inputs a
run meets. -/

/-- The escaping of `url.QueryEscape`. -/
def queryEscape : Bytes → Bytes
  | [] => []
  | b :: rest =>
    let hex : Nat → Nat := fun n => if n < 10 then 48 + n else 55 + n
    let plain : Bool :=
      (48 ≤ b && b ≤ 57) || (65 ≤ b && b ≤ 90) || (97 ≤ b && b ≤ 122) ||
        b == 45 || b == 95 || b == 46 || b == 126
    (if plain then [b] else if b = 32 then [43] else [37, hex (b / 16), hex (b % 16)]) ++
      queryEscape rest

/-- The encoding of `url.Values.Encode`: the pairs, sorted by key, as
`key=value` joined by `&`. -/
def formEncode (v : Values) : Bytes :=
  strings.Join
    ((v.mergeSort (fun a b => decide (a.1 ≤ b.1))).map
      (fun kv => queryEscape kv.1 ++ ascii "=" ++ queryEscape kv.2))
    (ascii "&")

/-- An environment given by tables: the upstream answer by URL, and the
decoded value of each JSON document; a struct is encoded to the document of
the table that decodes to it. Every URL string is taken to parse. -/
def tableEnv (net : List (Bytes × Except GoError Response))
    (fmts : List (Bytes × FmtResponse)) (compiles : List (Bytes × CompileResponse)) : Env where
  NewRequest _ _ := none
  ClientDo req :=
    match net.lookup req.URL with
    | some answer => answer
    | none => .error ⟨ascii "dial tcp: no such host"⟩
  Encode := formEncode
  UnmarshalFmt b :=
    match fmts.lookup b with
    | some v => .ok v
    | none => .error ⟨ascii "unexpected end of JSON input"⟩
  UnmarshalCompile b :=
    match compiles.lookup b with
    | some v => .ok v
    | none => .error ⟨ascii "unexpected end of JSON input"⟩
  MarshalCompile v :=
    match compiles.find? (fun p => p.2 = v) with
    | some p => .ok p.1
    | none => .error ⟨ascii "json: unsupported value"⟩

def play : serverContext := ⟨ascii "https://play.golang.org"⟩

/-- A POST to /compile with the given snippet. -/
def post (snippet : Bytes) : HttpRequest := ⟨http.MethodPost, [], ⟨snippet, none⟩⟩

/-! ### A snippet the formatter rejects -/

def brokenSrc : Bytes := ascii "package main\n\nfunc main() \x7b\n"

def brokenFmt : Bytes :=
  ascii "\x7b\"Body\":\"\",\"Error\":\"prog.go:4:1: expected declaration, found EOF\"\x7d"

def brokenFmtResponse : FmtResponse :=
  ⟨[], ascii "prog.go:4:1: expected declaration, found EOF"⟩

def brokenEnv : Env :=
  tableEnv [(fmtURL play, .ok ⟨200, ⟨brokenFmt, none⟩⟩)] [(brokenFmt, brokenFmtResponse)] []

/-! ### A snippet already in canonical form -/

def tidySrc : Bytes := ascii "package main\n\nfunc main() \x7b\n\x7d\n"

def tidyFmt : Bytes :=
  ascii "\x7b\"Body\":\"package main\\n\\nfunc main() \x7b\\n\x7d\\n\",\"Error\":\"\"\x7d"

def tidyCompile : Bytes :=
  ascii "\x7b\"Errors\":\"\",\"Events\":null,\"Status\":0,\"IsTest\":false,\"TestsFailed\":0\x7d"

def tidyEnv : Env :=
  tableEnv
    [(fmtURL play, .ok ⟨200, ⟨tidyFmt, none⟩⟩), (compileURL play, .ok ⟨200, ⟨tidyCompile, none⟩⟩)]
    [(tidyFmt, ⟨tidySrc, []⟩)] [(tidyCompile, ⟨none, none, []⟩)]

/-! ### A snippet the formatter changes -/

def rawSrc : Bytes := ascii "package main\nfunc main()\x7bprintln(1)\x7d"

def fmtSrc : Bytes := ascii "package main\n\nfunc main() \x7b println(1) \x7d\n"

def rawFmt : Bytes :=
  ascii "\x7b\"Body\":\"package main\\n\\nfunc main() \x7b println(1) \x7d\\n\",\"Error\":\"\"\x7d"

def rawCompile : Bytes :=
  ascii ("\x7b\"Errors\":\"\",\"Events\":[\x7b\"Message\":\"1\\n\",\"Kind\":\"stderr\"," ++
    "\"Delay\":0\x7d],\"Status\":0,\"IsTest\":false,\"TestsFailed\":0\x7d")

def rawCompileResponse : CompileResponse :=
  ⟨none, some [some ⟨ascii "1\n", ascii "stderr", 0⟩], []⟩

def patchedCompile : Bytes :=
  ascii ("\x7b\"Body\":\"package main\\n\\nfunc main() \x7b println(1) \x7d\\n\"," ++
    "\"Events\":[\x7b\"Message\":\"1\\n\",\"Kind\":\"stderr\",\"Delay\":0\x7d],\"Errors\":\"\"\x7d")

def rawEnv : Env :=
  tableEnv
    [(fmtURL play, .ok ⟨200, ⟨rawFmt, none⟩⟩), (compileURL play, .ok ⟨200, ⟨rawCompile, none⟩⟩)]
    [(rawFmt, ⟨fmtSrc, []⟩)]
    [(rawCompile, rawCompileResponse),
      (patchedCompile, { rawCompileResponse with Body := some fmtSrc })]

/-! ### A snippet longer than the maximum that the formatter shortens -/

/-- The clause `package main` followed by 65536 empty lines: 65549 bytes. -/
def longSrc : Bytes := ascii "package main\n" ++ List.replicate 65536 10

def longFmt : Bytes := ascii "\x7b\"Body\":\"package main\\n\",\"Error\":\"\"\x7d"

def longCompile : Bytes :=
  ascii ("\x7b\"Errors\":\"runtime.main: function main is undeclared in the main package\\n\"," ++
    "\"Events\":null\x7d")

def longCompileResponse : CompileResponse :=
  ⟨none, none, ascii "runtime.main: function main is undeclared in the main package\n"⟩

def longPatched : Bytes :=
  ascii ("\x7b\"Body\":\"package main\\n\",\"Events\":null,\"Errors\":" ++
    "\"runtime.main: function main is undeclared in the main package\\n\"\x7d")

def longEnv : Env :=
  tableEnv
    [(fmtURL play, .ok ⟨200, ⟨longFmt, none⟩⟩), (compileURL play, .ok ⟨200, ⟨longCompile, none⟩⟩)]
    [(longFmt, ⟨ascii "package main\n", []⟩)]
    [(longCompile, longCompileResponse),
      (longPatched, { longCompileResponse with Body := some (ascii "package main\n") })]

/-! ### Upstream answers that fail the format transport -/

/-- A format answer of 65537 bytes, one more than the cap. -/
def hugeEnv : Env := tableEnv [(fmtURL play, .ok ⟨200, ⟨List.replicate 65537 32, none⟩⟩)] [] []

/-- An upstream that refuses the connection. -/
def downEnv : Env :=
  tableEnv [(fmtURL play, .error ⟨ascii "dial tcp 10.0.0.7:443: connect: connection refused"⟩)]
    [] []

/-! ### Loading a snippet -/

/-- A GET to /load with the given raw query. -/
def get (query : Bytes) : HttpRequest := ⟨http.MethodGet, query, ⟨[], none⟩⟩

/-- The snippet is not found upstream. -/
def missingEnv : Env :=
  tableEnv [(loadURL play (ascii "abc123"), .ok ⟨404, ⟨ascii "Snippet not found", none⟩⟩)] [] []

/-- The upstream answers 404 and the connection breaks inside the body. -/
def brokenMissingEnv : Env :=
  tableEnv
    [(loadURL play (ascii "abc123"),
      .ok ⟨404, ⟨ascii "Snippet", some ⟨ascii "unexpected EOF"⟩⟩⟩)] [] []

/-- The upstream answers 200 and the connection breaks inside the body. -/
def brokenLoadEnv : Env :=
  tableEnv
    [(loadURL play (ascii "abc123"),
      .ok ⟨200, ⟨ascii "package main", some ⟨ascii "unexpected EOF"⟩⟩⟩)] [] []

/-- The upstream answers with the status line 099, which the Go client
accepts. -/
def oddStatusEnv : Env :=
  tableEnv [(loadURL play (ascii "abc123"), .ok ⟨99, ⟨ascii "abc", none⟩⟩)] [] []

/-- The raw query `%zz` makes a URL string that `net/url` does not parse. -/
def badQueryEnv : Env :=
  { missingEnv with
    NewRequest := fun _ url =>
      if url = loadURL play (ascii "%zz") then
        some ⟨ascii "parse \"https://play.golang.org/p/%zz.go\": invalid URL escape \"%zz\""⟩
      else none }

/-! # Theorems -/

/-! ## The transport -/

theorem Env.Do_ok (env : Env) (req : Request) (x : Response) (h : env.Do req = .ok x) :
    env.NewRequest req.Method req.URL = none ∧ env.ClientDo req = .ok x := by
  unfold Env.Do at h
  split at h
  · cases h
  · rename_i hn
    exact ⟨hn, h⟩

theorem doRequest_sent (c : serverContext) (env : Env) (method url contentType body : Bytes) :
    (c.doRequest env method url contentType body).sent =
      mkRequest method url contentType body := by
  simp only [serverContext.doRequest, mkRequest]
  split
  · rfl
  · split
    · rfl
    · split
      · rfl
      · split <;> rfl

/-- A request that `doRequest` gets an answer or a transport error for has been
handed to the client. -/
theorem doRequest_calls (c : serverContext) (env : Env) (method url contentType body : Bytes)
    (hn : env.NewRequest method url = none) :
    (c.doRequest env method url contentType body).calls =
      [(c.doRequest env method url contentType body).sent] := by
  simp only [serverContext.doRequest, hn]
  split
  · rfl
  · split
    · rfl
    · split <;> rfl

theorem doRequest_calls_of_ok (c : serverContext) (env : Env)
    (method url contentType body F : Bytes)
    (h : (c.doRequest env method url contentType body).result = .ok F) :
    (c.doRequest env method url contentType body).calls =
      [(c.doRequest env method url contentType body).sent] := by
  cases hn : env.NewRequest method url with
  | none => exact doRequest_calls c env method url contentType body hn
  | some e =>
    simp [serverContext.doRequest, hn] at h

theorem doRequest_too_large (c : serverContext) (env : Env)
    (method url contentType body : Bytes) (status : Nat) (B : Bytes) (berr : Option GoError)
    (hDo : env.Do (mkRequest method url contentType body) = .ok ⟨status, ⟨B, berr⟩⟩)
    (hB : maxSnippetSize < B.length) :
    (c.doRequest env method url contentType body).result =
      .error (errors.New (ascii "Snippet is too large")) := by
  have h1 : ¬ B.length < maxSnippetSize + 1 := by omega
  have h2 : maxSnippetSize < min (maxSnippetSize + 1) B.length := by omega
  obtain ⟨hn, hc⟩ := Env.Do_ok env _ _ hDo
  simp only [mkRequest] at hn hc
  simp [serverContext.doRequest, hn, hc, io.Copy, io.LimitReader, h1, h2]

theorem doRequest_ok (c : serverContext) (env : Env)
    (method url contentType body : Bytes) (status : Nat) (B : Bytes)
    (hDo : env.Do (mkRequest method url contentType body) = .ok ⟨status, ⟨B, none⟩⟩)
    (hB : B.length ≤ maxSnippetSize) :
    (c.doRequest env method url contentType body).result = .ok B := by
  have h2 : ¬ maxSnippetSize < B.length := by omega
  have h3 : List.take (maxSnippetSize + 1) B = B := List.take_of_length_le (by omega)
  obtain ⟨hn, hc⟩ := Env.Do_ok env _ _ hDo
  simp only [mkRequest] at hn hc
  simp [serverContext.doRequest, hn, hc, io.Copy, io.LimitReader, h2, h3]

theorem doRequest_consumed (c : serverContext) (env : Env)
    (method url contentType body : Bytes) :
    (c.doRequest env method url contentType body).consumed ≤ maxSnippetSize + 1 := by
  simp only [serverContext.doRequest, io.Copy, io.LimitReader]
  split
  · simp
  · split
    · simp
    · split
      · rename_i h
        simp only [Prod.mk.injEq] at h
        rw [← h.1]
        simp
      · rename_i h
        simp only [Prod.mk.injEq] at h
        split <;> (rw [← h.1]; simp)

/-! ## Requests of the two stages -/

theorem runImports_eq (c : serverContext) (env : Env) (body : Bytes) :
    c.runImports env body =
      c.doRequest env (ascii "POST") (fmtURL c) (ascii "application/x-www-form-urlencoded")
        (env.Encode [(ascii "imports", ascii "true"), (ascii "body", body)]) := rfl

theorem runCompile_eq (c : serverContext) (env : Env) (body : Bytes) :
    c.runCompile env body =
      c.doRequest env (ascii "POST") (compileURL c) (ascii "application/x-www-form-urlencoded")
        (env.Encode [(ascii "body", body), (ascii "version", ascii "2")]) := rfl

theorem runImports_sent (c : serverContext) (env : Env) (body : Bytes) :
    (c.runImports env body).sent =
      ⟨ascii "POST", fmtURL c,
        [(ascii "Content-Type", ascii "application/x-www-form-urlencoded"),
          (ascii "User-Agent", userAgent)],
        env.Encode [(ascii "imports", ascii "true"), (ascii "body", body)]⟩ := by
  rw [runImports_eq, doRequest_sent, mkRequest]

theorem runCompile_sent (c : serverContext) (env : Env) (body : Bytes) :
    (c.runCompile env body).sent =
      ⟨ascii "POST", compileURL c,
        [(ascii "Content-Type", ascii "application/x-www-form-urlencoded"),
          (ascii "User-Agent", userAgent)],
        env.Encode [(ascii "body", body), (ascii "version", ascii "2")]⟩ := by
  rw [runCompile_eq, doRequest_sent, mkRequest]

theorem runImports_calls (c : serverContext) (env : Env) (body F : Bytes)
    (h : (c.runImports env body).result = .ok F) :
    (c.runImports env body).calls = [(c.runImports env body).sent] := by
  rw [runImports_eq] at h ⊢
  exact doRequest_calls_of_ok c env _ _ _ _ F h

theorem runCompile_calls (c : serverContext) (env : Env) (body C : Bytes)
    (h : (c.runCompile env body).result = .ok C) :
    (c.runCompile env body).calls = [(c.runCompile env body).sent] := by
  rw [runCompile_eq] at h ⊢
  exact doRequest_calls_of_ok c env _ _ _ _ C h

theorem fmtURL_ne_compileURL (c : serverContext) : fmtURL c ≠ compileURL c := by
  intro h
  have h' := List.append_cancel_left h
  revert h'
  decide

/-! ## The response writer -/

theorem response_httpError (msg : Bytes) (code : Nat) (hv : validCode code = true)
    (hi : informational code = false) :
    response (http.Error [] msg code) =
      some ⟨code, if bodyAllowedForStatus code then msg ++ ascii "\n" else []⟩ := by
  simp [http.Error, wroteHeader, response, bodyOf, hv, hi]

theorem served_httpError_500 (msg : Bytes) :
    served (http.Error [] msg http.StatusInternalServerError) = ⟨500, msg ++ ascii "\n"⟩ := by
  rw [served, response_httpError msg _ (by decide) (by decide)]
  rfl

theorem served_write (b : Bytes) : served [.Write b] = ⟨200, b⟩ := by
  simp [served, response, bodyOf, http.StatusOK]

theorem longSrc_length : maxSnippetSize < longSrc.length := by
  have h13 : (ascii "package main\n").length = 13 := rfl
  rw [longSrc, List.length_append, List.length_replicate, h13]
  decide

/-! ## The paths through `compileHandler` -/

theorem run_format_transport (c : serverContext) (env : Env) (r : HttpRequest) (S : Bytes)
    (e : GoError) (hm : r.Method = http.MethodPost) (hb : r.Body = ⟨S, none⟩)
    (hF : (c.runImports env S).result = .error e) :
    c.compileHandler env r =
      ⟨http.Error [] (ascii "Failed to format source code") http.StatusInternalServerError,
        (c.runImports env S).calls, [⟨ascii "runImports() error: %v", e⟩]⟩ := by
  simp [serverContext.compileHandler, hm, hb, ioutil.ReadAll, hF]

theorem run_format_decode (c : serverContext) (env : Env) (r : HttpRequest) (S F : Bytes)
    (e : GoError) (hm : r.Method = http.MethodPost) (hb : r.Body = ⟨S, none⟩)
    (hF : (c.runImports env S).result = .ok F) (hd : env.UnmarshalFmt F = .error e) :
    c.compileHandler env r =
      ⟨http.Error [] (ascii "Failed to decode upstream server response")
          http.StatusInternalServerError,
        [(c.runImports env S).sent], [⟨ascii "fmtResponse unmarshal error: %v", e⟩]⟩ := by
  simp [serverContext.compileHandler, hm, hb, ioutil.ReadAll, hF, hd,
    runImports_calls c env S F hF]

theorem run_format_error (c : serverContext) (env : Env) (r : HttpRequest) (S F : Bytes)
    (fr : FmtResponse) (hm : r.Method = http.MethodPost) (hb : r.Body = ⟨S, none⟩)
    (hF : (c.runImports env S).result = .ok F) (hd : env.UnmarshalFmt F = .ok fr)
    (he : fr.Error ≠ []) :
    c.compileHandler env r = ⟨[.Write F], [(c.runImports env S).sent], []⟩ := by
  simp [serverContext.compileHandler, hm, hb, ioutil.ReadAll, hF, hd, he,
    runImports_calls c env S F hF]

theorem run_compile_transport (c : serverContext) (env : Env) (r : HttpRequest) (S F : Bytes)
    (fr : FmtResponse) (e : GoError) (hm : r.Method = http.MethodPost)
    (hb : r.Body = ⟨S, none⟩) (hF : (c.runImports env S).result = .ok F)
    (hd : env.UnmarshalFmt F = .ok fr) (he : fr.Error = [])
    (hC : (c.runCompile env fr.Body).result = .error e) :
    c.compileHandler env r =
      ⟨http.Error [] (ascii "Failed to compile source code") http.StatusInternalServerError,
        (c.runImports env S).sent :: (c.runCompile env fr.Body).calls,
        [⟨ascii "runCompile() error: %v", e⟩]⟩ := by
  simp [serverContext.compileHandler, hm, hb, ioutil.ReadAll, hF, hd, he, hC,
    runImports_calls c env S F hF]

theorem run_unchanged (c : serverContext) (env : Env) (r : HttpRequest) (S F C : Bytes)
    (fr : FmtResponse) (hm : r.Method = http.MethodPost) (hb : r.Body = ⟨S, none⟩)
    (hF : (c.runImports env S).result = .ok F) (hd : env.UnmarshalFmt F = .ok fr)
    (he : fr.Error = []) (hS : fr.Body = S) (hC : (c.runCompile env fr.Body).result = .ok C) :
    c.compileHandler env r =
      ⟨[.Write C], [(c.runImports env S).sent, (c.runCompile env fr.Body).sent], []⟩ := by
  subst hS
  simp [serverContext.compileHandler, hm, hb, ioutil.ReadAll, hF, hd, he, hC,
    runImports_calls c env _ F hF, runCompile_calls c env _ C hC]

theorem run_compile_decode (c : serverContext) (env : Env) (r : HttpRequest) (S F C : Bytes)
    (fr : FmtResponse) (e : GoError) (hm : r.Method = http.MethodPost)
    (hb : r.Body = ⟨S, none⟩) (hF : (c.runImports env S).result = .ok F)
    (hd : env.UnmarshalFmt F = .ok fr) (he : fr.Error = []) (hS : fr.Body ≠ S)
    (hC : (c.runCompile env fr.Body).result = .ok C)
    (hdc : env.UnmarshalCompile C = .error e) :
    c.compileHandler env r =
      ⟨http.Error [] (ascii "Failed to decode upstream server response")
          http.StatusInternalServerError,
        [(c.runImports env S).sent, (c.runCompile env fr.Body).sent],
        [⟨ascii "compileResponse unmarshal error: %v", e⟩]⟩ := by
  simp [serverContext.compileHandler, hm, hb, ioutil.ReadAll, hF, hd, he, hC, hS, hdc,
    runImports_calls c env S F hF, runCompile_calls c env _ C hC]

theorem run_encode (c : serverContext) (env : Env) (r : HttpRequest) (S F C : Bytes)
    (fr : FmtResponse) (cr : CompileResponse) (e : GoError)
    (hm : r.Method = http.MethodPost) (hb : r.Body = ⟨S, none⟩)
    (hF : (c.runImports env S).result = .ok F) (hd : env.UnmarshalFmt F = .ok fr)
    (he : fr.Error = []) (hS : fr.Body ≠ S) (hC : (c.runCompile env fr.Body).result = .ok C)
    (hdc : env.UnmarshalCompile C = .ok cr)
    (hen : env.MarshalCompile { cr with Body := some fr.Body } = .error e) :
    c.compileHandler env r =
      ⟨http.Error [] (ascii "Failed to encode data") http.StatusInternalServerError,
        [(c.runImports env S).sent, (c.runCompile env fr.Body).sent],
        [⟨ascii "compileResponse marshal error: %v", e⟩]⟩ := by
  simp [serverContext.compileHandler, hm, hb, ioutil.ReadAll, hF, hd, he, hC, hS, hdc, hen,
    runImports_calls c env S F hF, runCompile_calls c env _ C hC]

theorem run_patched (c : serverContext) (env : Env) (r : HttpRequest) (S F C out : Bytes)
    (fr : FmtResponse) (cr : CompileResponse)
    (hm : r.Method = http.MethodPost) (hb : r.Body = ⟨S, none⟩)
    (hF : (c.runImports env S).result = .ok F) (hd : env.UnmarshalFmt F = .ok fr)
    (he : fr.Error = []) (hS : fr.Body ≠ S) (hC : (c.runCompile env fr.Body).result = .ok C)
    (hdc : env.UnmarshalCompile C = .ok cr)
    (hen : env.MarshalCompile { cr with Body := some fr.Body } = .ok out) :
    c.compileHandler env r =
      ⟨[.Write out], [(c.runImports env S).sent, (c.runCompile env fr.Body).sent], []⟩ := by
  simp [serverContext.compileHandler, hm, hb, ioutil.ReadAll, hF, hd, he, hC, hS, hdc, hen,
    runImports_calls c env S F hF, runCompile_calls c env _ C hC]

/-- A failure at stage `s` is answered with 500 and the message of `s`; the
underlying error goes to the log only. -/
theorem run_failure (c : serverContext) (env : Env) (r : HttpRequest) (s : Stage)
    (e : GoError) (h : FailsAt c env r s e) :
    (c.compileHandler env r).w = http.Error [] s.message http.StatusInternalServerError ∧
      (c.compileHandler env r).log = [⟨s.logFormat, e⟩] := by
  obtain ⟨hm, S, hb, hs⟩ := h
  cases s with
  | formatTransport =>
    rw [run_format_transport c env r S e hm hb hs]
    exact ⟨rfl, rfl⟩
  | formatDecode =>
    obtain ⟨F, hF, hd⟩ := hs
    rw [run_format_decode c env r S F e hm hb hF hd]
    exact ⟨rfl, rfl⟩
  | compileTransport =>
    obtain ⟨F, fr, hF, hd, he, hC⟩ := hs
    rw [run_compile_transport c env r S F fr e hm hb hF hd he hC]
    exact ⟨rfl, rfl⟩
  | compileDecode =>
    obtain ⟨F, fr, C, hF, hd, he, hS, hC, hdc⟩ := hs
    rw [run_compile_decode c env r S F C fr e hm hb hF hd he hS hC hdc]
    exact ⟨rfl, rfl⟩
  | reencode =>
    obtain ⟨F, fr, C, cr, hF, hd, he, hS, hC, hdc, hen⟩ := hs
    rw [run_encode c env r S F C fr cr e hm hb hF hd he hS hC hdc hen]
    exact ⟨rfl, rfl⟩

/-- C9. For every request to compileHandler whose method is not POST, whatever
its body, the response is status 405 with the message "Method not allowed" and
no upstream request is attempted: neither the format nor the compile stage
runs. -/
theorem compileHandler_method_not_allowed (c : serverContext) (env : Env) (r : HttpRequest)
    (hm : r.Method ≠ http.MethodPost) :
    served (c.compileHandler env r).w = ⟨405, ascii "Method not allowed" ++ ascii "\n"⟩ ∧
      (c.compileHandler env r).calls = [] := by
  constructor
  · simp only [serverContext.compileHandler, hm, ne_eq, not_false_eq_true, if_true]
    rw [served, response_httpError _ _ (by decide) (by decide)]
    rfl
  · simp [serverContext.compileHandler, hm]

/-- C5. For every upstream response body B that doRequest receives without a
transport or read failure: doRequest reads at most maxSnippetSize + 1 bytes of
B; it returns an error, and no data, if and only if B is longer than
maxSnippetSize; otherwise it returns exactly B. -/
theorem doRequest_size_cap (c : serverContext) (env : Env)
    (method url contentType body : Bytes) (status : Nat) (B : Bytes)
    (hDo : env.Do (mkRequest method url contentType body) = .ok ⟨status, ⟨B, none⟩⟩) :
    (c.doRequest env method url contentType body).consumed ≤ maxSnippetSize + 1 ∧
      ((∃ e, (c.doRequest env method url contentType body).result = .error e) ↔
        maxSnippetSize < B.length) ∧
      (B.length ≤ maxSnippetSize →
        (c.doRequest env method url contentType body).result = .ok B) := by
  refine ⟨doRequest_consumed c env method url contentType body, ?_, ?_⟩
  · constructor
    · rintro ⟨e, he⟩
      by_contra hlt
      rw [doRequest_ok c env method url contentType body status B hDo (by omega)] at he
      cases he
    · intro hlt
      exact ⟨_, doRequest_too_large c env method url contentType body status B none hDo hlt⟩
  · intro hle
    exact doRequest_ok c env method url contentType body status B hDo hle

theorem doRequest_size_cap_witness :
    (play.doRequest tidyEnv (ascii "POST") (fmtURL play) (ascii "text/plain") tidySrc).consumed ≤
        maxSnippetSize + 1 ∧
      ((∃ e, (play.doRequest tidyEnv (ascii "POST") (fmtURL play) (ascii "text/plain")
          tidySrc).result = .error e) ↔ maxSnippetSize < tidyFmt.length) ∧
      (tidyFmt.length ≤ maxSnippetSize →
        (play.doRequest tidyEnv (ascii "POST") (fmtURL play) (ascii "text/plain")
          tidySrc).result = .ok tidyFmt) :=
  doRequest_size_cap play tidyEnv (ascii "POST") (fmtURL play) (ascii "text/plain") tidySrc 200
    tidyFmt (by rfl)

theorem compileHandler_method_not_allowed_witness :
    served (play.compileHandler tidyEnv ⟨http.MethodGet, [], ⟨tidySrc, none⟩⟩).w =
        ⟨405, ascii "Method not allowed" ++ ascii "\n"⟩ ∧
      (play.compileHandler tidyEnv ⟨http.MethodGet, [], ⟨tidySrc, none⟩⟩).calls = [] :=
  compileHandler_method_not_allowed play tidyEnv ⟨http.MethodGet, [], ⟨tidySrc, none⟩⟩
    (by decide)

/-- C1. For every POST request to compileHandler with snippet S: if the format
call succeeds and its response bytes F decode to a FmtResponse with a non-empty
Error, then the only upstream request is the format request, none goes to the
compile URL, and the handler writes exactly F, without a status call: the
client receives status 200 and body F. -/
theorem compileHandler_format_error (c : serverContext) (env : Env) (r : HttpRequest)
    (S F : Bytes) (fr : FmtResponse)
    (hm : r.Method = http.MethodPost) (hb : r.Body = ⟨S, none⟩)
    (hF : (c.runImports env S).result = .ok F) (hd : env.UnmarshalFmt F = .ok fr)
    (he : fr.Error ≠ []) :
    (c.compileHandler env r).calls = [(c.runImports env S).sent] ∧
      (∀ q ∈ (c.compileHandler env r).calls, q.URL ≠ compileURL c) ∧
      (c.compileHandler env r).w = [.Write F] ∧
      served (c.compileHandler env r).w = ⟨200, F⟩ := by
  rw [run_format_error c env r S F fr hm hb hF hd he]
  refine ⟨rfl, ?_, rfl, ?_⟩
  · intro q hq
    simp only [List.mem_singleton] at hq
    rw [hq, runImports_sent]
    exact fmtURL_ne_compileURL c
  · exact served_write F

theorem compileHandler_format_error_witness :
    (play.compileHandler brokenEnv (post brokenSrc)).calls =
        [(play.runImports brokenEnv brokenSrc).sent] ∧
      (∀ q ∈ (play.compileHandler brokenEnv (post brokenSrc)).calls, q.URL ≠ compileURL play) ∧
      (play.compileHandler brokenEnv (post brokenSrc)).w = [.Write brokenFmt] ∧
      served (play.compileHandler brokenEnv (post brokenSrc)).w = ⟨200, brokenFmt⟩ :=
  compileHandler_format_error play brokenEnv (post brokenSrc) brokenSrc brokenFmt
    brokenFmtResponse rfl rfl (by rfl) (by rfl) (by decide)

/-- C2. For every snippet S of byte length at most maxSnippetSize: if the
format response decodes to an empty Error and to Body equal to S, and the
compile call succeeds with raw bytes C, then compileHandler writes exactly C
(one write, nothing decoded or re-encoded, whether or not C is a JSON document):
the client receives status 200 and body C. -/
theorem compileHandler_unchanged (c : serverContext) (env : Env) (r : HttpRequest)
    (S F C : Bytes) (fr : FmtResponse) (_hS : S.length ≤ maxSnippetSize)
    (hm : r.Method = http.MethodPost) (hb : r.Body = ⟨S, none⟩)
    (hF : (c.runImports env S).result = .ok F) (hd : env.UnmarshalFmt F = .ok fr)
    (he : fr.Error = []) (hbody : fr.Body = S)
    (hC : (c.runCompile env S).result = .ok C) :
    (c.compileHandler env r).w = [.Write C] ∧
      served (c.compileHandler env r).w = ⟨200, C⟩ := by
  rw [← hbody] at hC
  rw [run_unchanged c env r S F C fr hm hb hF hd he hbody hC]
  constructor
  · rfl
  · exact served_write C

theorem compileHandler_unchanged_witness :
    (play.compileHandler tidyEnv (post tidySrc)).w = [.Write tidyCompile] ∧
      served (play.compileHandler tidyEnv (post tidySrc)).w = ⟨200, tidyCompile⟩ :=
  compileHandler_unchanged play tidyEnv (post tidySrc) tidySrc tidyFmt tidyCompile
    ⟨tidySrc, []⟩ (by decide) rfl rfl (by rfl) (by rfl) rfl rfl (by rfl)

/-- C3. For every snippet S for which the formatter returns a different body
with an empty error, and every compile response C that decodes as a
CompileResponse (encoding/json keeping its contract on the patched struct):
the second upstream request is the compile request whose form carries the
formatted body, and the handler writes one JSON document, with status 200,
whose decoded Body is exactly the formatted body: not S, and whatever Body the
compile response carried. -/
theorem compileHandler_patched_body (c : serverContext) (env : Env) (r : HttpRequest)
    (S F C : Bytes) (fr : FmtResponse) (cr : CompileResponse)
    (hm : r.Method = http.MethodPost) (hb : r.Body = ⟨S, none⟩)
    (hF : (c.runImports env S).result = .ok F) (hd : env.UnmarshalFmt F = .ok fr)
    (he : fr.Error = []) (hS : fr.Body ≠ S)
    (hC : (c.runCompile env fr.Body).result = .ok C)
    (hdc : env.UnmarshalCompile C = .ok cr)
    (hjson : JsonRoundTrip env { cr with Body := some fr.Body }) :
    (c.compileHandler env r).calls =
        [(c.runImports env S).sent,
          ⟨ascii "POST", compileURL c,
            [(ascii "Content-Type", ascii "application/x-www-form-urlencoded"),
              (ascii "User-Agent", userAgent)],
            env.Encode [(ascii "body", fr.Body), (ascii "version", ascii "2")]⟩] ∧
      (∃ out, env.MarshalCompile { cr with Body := some fr.Body } = .ok out ∧
        (c.compileHandler env r).w = [.Write out]) ∧
      (served (c.compileHandler env r).w).status = 200 ∧
      ∃ cr', env.UnmarshalCompile (served (c.compileHandler env r).w).body = .ok cr' ∧
        cr'.Body = some fr.Body ∧ cr'.Body ≠ some S := by
  obtain ⟨out, hen, hrt⟩ := hjson
  rw [run_patched c env r S F C out fr cr hm hb hF hd he hS hC hdc hen]
  have hs : served [WCall.Write out] = ⟨200, out⟩ := served_write out
  refine ⟨by rw [runCompile_sent], ⟨out, hen, rfl⟩, by rw [hs], ?_⟩
  refine ⟨{ cr with Body := some fr.Body }, by rw [hs]; exact hrt, rfl, ?_⟩
  simpa using hS

theorem compileHandler_patched_body_witness :
    (play.compileHandler rawEnv (post rawSrc)).calls =
        [(play.runImports rawEnv rawSrc).sent,
          ⟨ascii "POST", compileURL play,
            [(ascii "Content-Type", ascii "application/x-www-form-urlencoded"),
              (ascii "User-Agent", userAgent)],
            rawEnv.Encode [(ascii "body", fmtSrc), (ascii "version", ascii "2")]⟩] ∧
      (∃ out, rawEnv.MarshalCompile { rawCompileResponse with Body := some fmtSrc } = .ok out ∧
        (play.compileHandler rawEnv (post rawSrc)).w = [.Write out]) ∧
      (served (play.compileHandler rawEnv (post rawSrc)).w).status = 200 ∧
      ∃ cr', rawEnv.UnmarshalCompile (served (play.compileHandler rawEnv (post rawSrc)).w).body =
          .ok cr' ∧ cr'.Body = some fmtSrc ∧ cr'.Body ≠ some rawSrc :=
  compileHandler_patched_body play rawEnv (post rawSrc) rawSrc rawFmt rawCompile
    ⟨fmtSrc, []⟩ rawCompileResponse rfl rfl (by rfl) (by rfl) rfl (by decide) (by rfl) (by rfl)
    ⟨patchedCompile, by rfl, by rfl⟩

/-- C6. On the patched path of compileHandler (the formatter body differs from
the snippet, the compile response decodes, and encoding/json keeps its contract
on the patched struct), the document written decodes to a CompileResponse whose
Events (the same slice: same length, same order, the same Message, Kind and
Delay in each event) and whose Errors are those of the upstream compile
response; it is that response with only Body replaced. -/
theorem compileHandler_patched_frame (c : serverContext) (env : Env) (r : HttpRequest)
    (S F C : Bytes) (fr : FmtResponse) (cr : CompileResponse)
    (hm : r.Method = http.MethodPost) (hb : r.Body = ⟨S, none⟩)
    (hF : (c.runImports env S).result = .ok F) (hd : env.UnmarshalFmt F = .ok fr)
    (he : fr.Error = []) (hS : fr.Body ≠ S)
    (hC : (c.runCompile env fr.Body).result = .ok C)
    (hdc : env.UnmarshalCompile C = .ok cr)
    (hjson : JsonRoundTrip env { cr with Body := some fr.Body }) :
    ∃ cr', env.UnmarshalCompile (served (c.compileHandler env r).w).body = .ok cr' ∧
      cr'.Events = cr.Events ∧ cr'.Errors = cr.Errors ∧
      cr' = { cr with Body := some fr.Body } := by
  obtain ⟨out, hen, hrt⟩ := hjson
  rw [run_patched c env r S F C out fr cr hm hb hF hd he hS hC hdc hen]
  have hs : served [WCall.Write out] = ⟨200, out⟩ := served_write out
  exact ⟨{ cr with Body := some fr.Body }, by rw [hs]; exact hrt, rfl, rfl, rfl⟩

theorem compileHandler_patched_frame_witness :
    ∃ cr', rawEnv.UnmarshalCompile (served (play.compileHandler rawEnv (post rawSrc)).w).body =
        .ok cr' ∧
      cr'.Events = rawCompileResponse.Events ∧ cr'.Errors = rawCompileResponse.Errors ∧
      cr' = { rawCompileResponse with Body := some fmtSrc } :=
  compileHandler_patched_frame play rawEnv (post rawSrc) rawSrc rawFmt rawCompile
    ⟨fmtSrc, []⟩ rawCompileResponse rfl rfl (by rfl) (by rfl) rfl (by decide) (by rfl) (by rfl)
    ⟨patchedCompile, by rfl, by rfl⟩

/-- C4, as stated, fails: the snippet `longSrc` is longer than maxSnippetSize,
the formatter shortens it, and the handler goes on to the compile stage and
answers 200 with the patched compile response. -/
theorem compileHandler_long_snippet_compiled :
    maxSnippetSize < longSrc.length ∧
      (play.compileHandler longEnv (post longSrc)).calls.map (fun q => q.URL) =
        [fmtURL play, compileURL play] ∧
      served (play.compileHandler longEnv (post longSrc)).w = ⟨200, longPatched⟩ := by
  have hrun := run_patched play longEnv (post longSrc) longSrc longFmt longCompile longPatched
    ⟨ascii "package main\n", []⟩ longCompileResponse rfl rfl (by rfl) (by rfl) rfl (by decide)
    (by rfl) (by rfl) (by rfl)
  refine ⟨?_, ?_, ?_⟩
  · exact longSrc_length
  · rw [hrun]
    simp [runImports_sent, runCompile_sent]
  · rw [hrun]
    rfl

/-- C4, amended. For any snippet longer than maxSnippetSize: when the upstream
format response is itself longer than maxSnippetSize bytes, the transport fails
with "Snippet is too large"; the handler logs that error, answers 500 "Failed
to format source code", and makes no upstream compile request. -/
theorem compileHandler_oversize_format_response (c : serverContext) (env : Env)
    (r : HttpRequest) (S : Bytes) (status : Nat) (B : Bytes)
    (hm : r.Method = http.MethodPost) (hb : r.Body = ⟨S, none⟩)
    (_hS : maxSnippetSize < S.length)
    (hDo : env.Do (mkRequest (ascii "POST") (fmtURL c) (ascii "application/x-www-form-urlencoded")
      (env.Encode [(ascii "imports", ascii "true"), (ascii "body", S)])) =
        .ok ⟨status, ⟨B, none⟩⟩)
    (hB : maxSnippetSize < B.length) :
    (c.compileHandler env r).log =
        [⟨ascii "runImports() error: %v", errors.New (ascii "Snippet is too large")⟩] ∧
      served (c.compileHandler env r).w =
        ⟨500, ascii "Failed to format source code" ++ ascii "\n"⟩ ∧
      (c.compileHandler env r).calls = [(c.runImports env S).sent] ∧
      ∀ q ∈ (c.compileHandler env r).calls, q.URL ≠ compileURL c := by
  have hF : (c.runImports env S).result = .error (errors.New (ascii "Snippet is too large")) := by
    rw [runImports_eq]
    exact doRequest_too_large c env _ _ _ _ status B none hDo hB
  have hcalls : (c.runImports env S).calls = [(c.runImports env S).sent] := by
    rw [runImports_eq]
    exact doRequest_calls c env _ _ _ _ (Env.Do_ok env _ _ hDo).1
  rw [run_format_transport c env r S _ hm hb hF, hcalls]
  refine ⟨rfl, served_httpError_500 _, rfl, ?_⟩
  intro q hq
  simp only [List.mem_singleton] at hq
  rw [hq, runImports_sent]
  exact fmtURL_ne_compileURL c

theorem compileHandler_oversize_format_response_witness :
    (play.compileHandler hugeEnv (post longSrc)).log =
        [⟨ascii "runImports() error: %v", errors.New (ascii "Snippet is too large")⟩] ∧
      served (play.compileHandler hugeEnv (post longSrc)).w =
        ⟨500, ascii "Failed to format source code" ++ ascii "\n"⟩ ∧
      (play.compileHandler hugeEnv (post longSrc)).calls =
        [(play.runImports hugeEnv longSrc).sent] ∧
      ∀ q ∈ (play.compileHandler hugeEnv (post longSrc)).calls, q.URL ≠ compileURL play :=
  compileHandler_oversize_format_response play hugeEnv (post longSrc) longSrc 200
    (List.replicate 65537 32) rfl rfl
    longSrc_length
    (by rfl) (by rw [List.length_replicate]; decide)

/-- C8. For every POST request to compileHandler, a failure at one of the five
stages (format transport, format decode, compile transport, compile decode,
re-encode) is answered with status 500 and the fixed message of that stage:
two runs that fail at the same stage, with whatever underlying errors, contexts,
environments and snippets, send the client the same status and body. -/
theorem compileHandler_failure_generic (c₁ c₂ : serverContext) (env₁ env₂ : Env)
    (r₁ r₂ : HttpRequest) (s : Stage) (e₁ e₂ : GoError)
    (h₁ : FailsAt c₁ env₁ r₁ s e₁) (h₂ : FailsAt c₂ env₂ r₂ s e₂) :
    served (c₁.compileHandler env₁ r₁).w = ⟨500, s.message ++ ascii "\n"⟩ ∧
      served (c₂.compileHandler env₂ r₂).w = served (c₁.compileHandler env₁ r₁).w := by
  rw [(run_failure c₁ env₁ r₁ s e₁ h₁).1, (run_failure c₂ env₂ r₂ s e₂ h₂).1,
    served_httpError_500]
  exact ⟨rfl, rfl⟩

theorem compileHandler_failure_generic_witness :
    errors.New (ascii "Snippet is too large") ≠
        ⟨ascii "dial tcp 10.0.0.7:443: connect: connection refused"⟩ ∧
      served (play.compileHandler hugeEnv (post tidySrc)).w =
        ⟨500, Stage.formatTransport.message ++ ascii "\n"⟩ ∧
      served (play.compileHandler downEnv (post rawSrc)).w =
        served (play.compileHandler hugeEnv (post tidySrc)).w :=
  ⟨by decide,
    compileHandler_failure_generic play play hugeEnv downEnv (post tidySrc) (post rawSrc)
      .formatTransport (errors.New (ascii "Snippet is too large"))
      ⟨ascii "dial tcp 10.0.0.7:443: connect: connection refused"⟩
      ⟨rfl, tidySrc, rfl, by
        show (play.runImports hugeEnv tidySrc).result = _
        rw [runImports_eq]
        exact doRequest_too_large play hugeEnv _ _ _ _ 200 (List.replicate 65537 32) none
          (by rfl) (by rw [List.length_replicate]; decide)⟩
      ⟨rfl, rawSrc, rfl, by rfl⟩⟩

theorem loadURL_eq (c : serverContext) (id : Bytes) :
    strings.Join [c.backend, ascii "p", id ++ ascii ".go"] (ascii "/") = loadURL c id := by
  have h : ascii "/p/" = ascii "/" ++ (ascii "p" ++ ascii "/") := by decide
  simp [strings.Join, loadURL, h, List.append_assoc]

/-- C7, as stated, fails: upstream answers 404 and its body breaks off, and the
client receives status 500. -/
theorem loadHandler_status_not_relayed :
    brokenMissingEnv.Do ⟨http.MethodGet, loadURL play (ascii "abc123"), [], []⟩ =
        .ok ⟨404, ⟨ascii "Snippet", some ⟨ascii "unexpected EOF"⟩⟩⟩ ∧
      (served (play.loadHandler brokenMissingEnv (get (ascii "abc123"))).w).status = 500 :=
  ⟨by rfl, by rfl⟩

/-- C7, amended. For every backend origin O and every raw query q of a GET
/load request, loadHandler asks for exactly the URL string O/p/q.go: when
http.NewRequest builds a request from that string, the one request handed to
the client is a GET for it, with no header and no body, and when the string does
not parse nothing is handed over. Whenever the upstream answers with a status
code other than 200 that net/http takes as the status of a response (101, or
201 to 999: in 100..999 and not informational) and its body is read to the end
without error,
the handler calls http.Error with the upstream body as message and that code:
the client receives that same status code, with the upstream body and a
newline as content, or no content where the status forbids one (101, 204,
304). -/
theorem loadHandler_relay (c : serverContext) (env : Env) (r : HttpRequest)
    (hm : r.Method = http.MethodGet) :
    (env.NewRequest http.MethodGet (c.backend ++ ascii "/p/" ++ r.RawQuery ++ ascii ".go") =
        none →
      (c.loadHandler env r).calls =
        [⟨http.MethodGet, c.backend ++ ascii "/p/" ++ r.RawQuery ++ ascii ".go", [], []⟩]) ∧
      (∀ e, env.NewRequest http.MethodGet
          (c.backend ++ ascii "/p/" ++ r.RawQuery ++ ascii ".go") = some e →
        (c.loadHandler env r).calls = []) ∧
      ∀ (status : Nat) (B : Bytes),
        env.Do ⟨http.MethodGet, c.backend ++ ascii "/p/" ++ r.RawQuery ++ ascii ".go", [], []⟩ =
            .ok ⟨status, ⟨B, none⟩⟩ →
          status ≠ 200 → validCode status = true → informational status = false →
            (c.loadHandler env r).w = [.WriteHeader status, .Write (B ++ ascii "\n")] ∧
              response (c.loadHandler env r).w =
                some ⟨status, if bodyAllowedForStatus status then B ++ ascii "\n" else []⟩ := by
  have hurl := loadURL_eq c r.RawQuery
  rw [loadURL] at hurl
  refine ⟨?_, ?_, ?_⟩
  · intro hn
    simp only [serverContext.loadHandler, hm, http.Get, hurl, hn]
    simp only [ne_eq, not_true_eq_false, if_false]
    split
    · rename_i h
      simp only [Prod.mk.injEq] at h
      rw [← h.1]
    · rename_i h
      simp only [Prod.mk.injEq] at h
      split <;> rw [← h.1]
  · intro e hn
    simp only [serverContext.loadHandler, hm, http.Get, hurl, hn]
    simp
  · intro status B hDo hst hv hi
    obtain ⟨hn, hc⟩ := Env.Do_ok env _ _ hDo
    have hw : (c.loadHandler env r).w = http.Error [] B status := by
      simp only [serverContext.loadHandler, hm, http.Get, hurl, hn, hc, ioutil.ReadAll]
      simp [hst, http.StatusOK]
    rw [hw, response_httpError B status hv hi]
    refine ⟨?_, rfl⟩
    simp [http.Error, wroteHeader, hv]

theorem loadHandler_relay_witness :
    (play.loadHandler missingEnv (get (ascii "abc123"))).calls =
        [⟨http.MethodGet, ascii "https://play.golang.org/p/abc123.go", [], []⟩] ∧
      (play.loadHandler badQueryEnv (get (ascii "%zz"))).calls = [] ∧
      (play.loadHandler missingEnv (get (ascii "abc123"))).w =
        [.WriteHeader 404, .Write (ascii "Snippet not found\n")] ∧
      response (play.loadHandler missingEnv (get (ascii "abc123"))).w =
        some ⟨404, ascii "Snippet not found\n"⟩ :=
  ⟨(loadHandler_relay play missingEnv (get (ascii "abc123")) rfl).1 rfl,
    (loadHandler_relay play badQueryEnv (get (ascii "%zz")) rfl).2.1 _ (by rfl),
    (loadHandler_relay play missingEnv (get (ascii "abc123")) rfl).2.2 404
      (ascii "Snippet not found") (by rfl) (by decide) (by rfl) (by rfl)⟩

/-- An upstream status outside 100..999 is not relayed: on the status line 099
the `WriteHeader` call of `http.Error` panics, before the body is written, and
the client receives no response. -/
theorem loadHandler_invalid_status_panics :
    oddStatusEnv.Do ⟨http.MethodGet, loadURL play (ascii "abc123"), [], []⟩ =
        .ok ⟨99, ⟨ascii "abc", none⟩⟩ ∧
      (play.loadHandler oddStatusEnv (get (ascii "abc123"))).w = [.WriteHeader 99] ∧
      response (play.loadHandler oddStatusEnv (get (ascii "abc123"))).w = none :=
  ⟨by rfl, by rfl, by rfl⟩

/-- A query that makes the URL string unparsable is not requested: `http.Get`
fails before anything is sent, and the handler answers 500. -/
theorem loadHandler_unparsed_url_not_sent :
    (play.loadHandler badQueryEnv (get (ascii "%zz"))).calls = [] ∧
      response (play.loadHandler badQueryEnv (get (ascii "%zz"))).w =
        some ⟨500, ascii "Failed to load snippet\n"⟩ :=
  ⟨by rfl, by rfl⟩

/-- C10 fails on the code: upstream answers 200 and its body breaks off after
`package main`; loadHandler answers 500 "Failed to read data" and then, lacking
a return, writes the bytes read so far after it. -/
theorem loadHandler_read_failure_writes_on :
    (play.loadHandler brokenLoadEnv (get (ascii "abc123"))).w =
        [.WriteHeader 500, .Write (ascii "Failed to read data\n"),
          .Write (ascii "package main")] ∧
      served (play.loadHandler brokenLoadEnv (get (ascii "abc123"))).w =
        ⟨500, ascii "Failed to read data\npackage main"⟩ :=
  ⟨by rfl, by rfl⟩

end GoPlaySpace
